import Mathlib

/-!
Verification development for `rin_throwback_post.py` / `rin_throwback_tweet.py`:
a shallow embedding of the scripts' pure core (eligibility engine, selector,
tag fitting, atomic history save, run orchestration) together with theorems
about the embedded definitions.

Modelling conventions
- Python strings become `String`; a `dict.get` that may return `None` becomes
  a `String` where the empty string plays the role of the falsy `None`/`""`
  (the code only ever distinguishes truthy vs falsy on these fields).
- `datetime` values are embedded as a calendar-day number (`Int`, as used by
  `.date()` subtraction) plus a time-of-day component (`Nat`), ordered
  lexicographically exactly as full timestamps are ordered.
- ISO-timestamp strings stored in history are viewed through the lens of
  `datetime.fromisoformat`: a field is either falsy (`absent`: missing or the
  empty string), present but unparsable (`invalid`: `fromisoformat` raises),
  or present and parsed (`valid t`).  This is the only information the
  scripts extract from those strings.
- Remote calls (tweepy, AT-protocol HTTP) are external collaborators; each
  `try` block of the orchestrator is represented by an `Except` value in an
  environment record, with `.error` meaning the block raised.
-/

/-- Calendar timestamp: `day` is the calendar-day number (what `.date()`
subtraction measures), `tod` the time of day within that date.  Full
`datetime` comparison is lexicographic on `(day, tod)`. -/
structure DateTime where
  day : Int
  tod : Nat
deriving DecidableEq, Repr

/-- Full-timestamp strict order, as Python compares two `datetime`s. -/
def dtLt (a b : DateTime) : Bool :=
  a.day < b.day || (a.day = b.day && a.tod < b.tod)

/-- Embedding of `_days_ago(ts, now)`: `(now.date() - ts.date()).days`, a calendar-date
difference that ignores the time-of-day components. -/
def days_ago (ts now : DateTime) : Int :=
  now.day - ts.day

/-- A history record's timestamp field, viewed through
`datetime.fromisoformat`: `absent` = missing key or empty string (falsy),
`invalid` = non-empty but `fromisoformat` raises, `valid t` = parses to `t`. -/
inductive TsField where
  | absent
  | invalid
  | valid (t : DateTime)
deriving DecidableEq, Repr

/-- One manifest entry (`manifest.json` element); absent keys are `""`. -/
structure ManifestEntry where
  filename : String
  set_name : String
  set_url : String
  date_published : String
  tags : String
deriving DecidableEq, Repr

/-- One history record (`post_history.json` element); absent string keys are
`""`, absent identifier keys are `none`, timestamp keys are `TsField`s. -/
structure HistoryRecord where
  set_url : String
  set_name : String
  posted_at : TsField
  tweeted_at : TsField
  twitter_post_id : Option String
  bluesky_uri : Option String
  bluesky_url : Option String
  filename : String
deriving DecidableEq, Repr

/-- Python `a or b` on strings (with `None` embedded as `""`). -/
def pyOrS (a b : String) : String :=
  if a = "" then b else a

/-- Python `str.strip()` with no argument: drop leading and trailing
whitespace.  (Implemented on the character list so that it reduces inside
the kernel; the standard library `String.trim` does not.) -/
def pyStrip (s : String) : String :=
  String.mk (((s.data.dropWhile Char.isWhitespace).reverse.dropWhile Char.isWhitespace).reverse)

/-- History-record identity key:
`(h.get("set_url") or h.get("set_name") or "").strip()`. -/
def recKey (h : HistoryRecord) : String :=
  pyStrip (pyOrS h.set_url h.set_name)

/-- History-record timestamp in `rin_throwback_post.py`:
`h.get("posted_at") or h.get("tweeted_at")`. -/
def recTs (h : HistoryRecord) : TsField :=
  match h.posted_at with
  | .absent => h.tweeted_at
  | t => t

/-- Identity-to-last-seen index of `rin_throwback_post.py`'s
`_eligible_entries`: the `last` dict, built by one pass over `history`,
keeping for each non-empty key the maximum parsed timestamp; records with an
empty key, a falsy timestamp, or an unparsable timestamp are skipped. -/
def lastIndex (history : List HistoryRecord) : String → Option DateTime :=
  history.foldl
    (fun last h =>
      let key := recKey h
      let ts := recTs h
      if key = "" ∨ ts = TsField.absent then last
      else
        match ts with
        | .valid w =>
            (match last key with
             | none => fun k => if k = key then some w else last k
             | some prev =>
                 if dtLt prev w then (fun k => if k = key then some w else last k) else last)
        | _ => last)
    (fun _ => none)

/-- Manifest-entry identity key: `set_url` stripped if non-empty, else
`set_name` stripped (`key = set_url or set_name` after both are stripped). -/
def entryKey (e : ManifestEntry) : String :=
  pyOrS (pyStrip e.set_url) (pyStrip e.set_name)

/-- The per-entry eligibility test of `_eligible_entries`: empty key ⇒ not
eligible (the `continue`), otherwise eligible iff the key has no index record
or `_days_ago(when, now) >= threshold_days`. -/
def eligPred (last : String → Option DateTime) (thresholdDays : Int) (now : DateTime)
    (e : ManifestEntry) : Bool :=
  let key := entryKey e
  if key = "" then false
  else
    match last key with
    | none => true
    | some w => decide (thresholdDays ≤ days_ago w now)

/-- Embedding of `_eligible_entries` from `rin_throwback_post.py`: build the last-seen index,
then walk the manifest in order appending each eligible entry. -/
def eligible_entries (manifest : List ManifestEntry) (history : List HistoryRecord)
    (thresholdDays : Int) (now : DateTime) : List ManifestEntry :=
  let last := lastIndex history
  manifest.foldl (fun acc e => if eligPred last thresholdDays now e then acc ++ [e] else acc) []

/-- History-record timestamp in `rin_throwback_tweet.py`: only
`h.get("tweeted_at")` is consulted (no `posted_at` fallback). -/
def recTsTweet (h : HistoryRecord) : TsField :=
  h.tweeted_at

/-- Identity-to-last-seen index of `rin_throwback_tweet.py`'s
`_eligible_entries` (identical to the newer script's except for the
timestamp field read). -/
def lastIndexTweet (history : List HistoryRecord) : String → Option DateTime :=
  history.foldl
    (fun last h =>
      let key := recKey h
      let ts := recTsTweet h
      if key = "" ∨ ts = TsField.absent then last
      else
        match ts with
        | .valid w =>
            (match last key with
             | none => fun k => if k = key then some w else last k
             | some prev =>
                 if dtLt prev w then (fun k => if k = key then some w else last k) else last)
        | _ => last)
    (fun _ => none)

/-- Embedding of `_eligible_entries` from `rin_throwback_tweet.py`. -/
def eligible_entries_tweet (manifest : List ManifestEntry) (history : List HistoryRecord)
    (thresholdDays : Int) (now : DateTime) : List ManifestEntry :=
  let last := lastIndexTweet history
  manifest.foldl (fun acc e => if eligPred last thresholdDays now e then acc ++ [e] else acc) []

/-- Accumulating splitter behind `splitWs`: `acc` holds the characters of
the current word in reverse. -/
def splitWsAux : List Char → List Char → List String
  | [], acc => if acc = [] then [] else [String.mk acc.reverse]
  | c :: cs, acc =>
      if c.isWhitespace then
        if acc = [] then splitWsAux cs [] else String.mk acc.reverse :: splitWsAux cs []
      else splitWsAux cs (c :: acc)

/-- Python `str.split()` with no argument: split on whitespace runs,
discarding empty pieces. -/
def splitWs (s : String) : List String :=
  splitWsAux s.data []

/-- Python `t.startswith("#")`. -/
def startsWithHash (t : String) : Bool :=
  match t.data with
  | c :: _ => c = '#'
  | [] => false

/-- The greedy loop of `_fit_tags`: walk the hashtag list, appending each tag
whose inclusion keeps `base + "\n\n" + " ".join(kept + [t])` within
`max_len`, and `break` at the first tag that would overflow. -/
def fitLoop (base : String) (maxLen : Nat) (kept : List String) : List String → List String
  | [] => kept
  | t :: ts =>
      if (base ++ "\n\n" ++ String.intercalate " " (kept ++ [t])).length ≤ maxLen then
        fitLoop base maxLen (kept ++ [t]) ts
      else kept

/-- Embedding of `_fit_tags(base, tags, max_len)`: return the stripped tag string whole if
`base + "\n\n" + tags` fits, otherwise greedily keep a prefix of the
`#`-prefixed whitespace-separated tokens, joined by single spaces. -/
def fit_tags (base tags : String) (maxLen : Nat) : String :=
  let tags := pyStrip tags
  if tags = "" then ""
  else
    let candidate := base ++ "\n\n" ++ tags
    if candidate.length ≤ maxLen then tags
    else
      let tagList := (splitWs tags).filter startsWithHash
      String.intercalate " " (fitLoop base maxLen [] tagList)

/-- The whole hashtags of a tag string: its whitespace-separated tokens that
start with `#` (the `tag_list` of `_fit_tags`, computed on the stripped
string). -/
def hashtagsOf (tags : String) : List String :=
  (splitWs (pyStrip tags)).filter startsWithHash

/-- A file system as a partial map from paths to file contents. -/
def FS : Type := String → Option String

/-- Writing (creating or truncating) one file. -/
def fsWrite (fs : FS) (p c : String) : FS :=
  fun q => if q = p then some c else fs q

/-- Embedding of `Path.replace`: atomically rename `src` over `dst`. -/
def fsReplace (fs : FS) (src dst : String) : FS :=
  fun q => if q = dst then fs src else if q = src then none else fs q

/-- The temporary sibling path of `_save_json`:
`path.with_suffix(path.suffix + ".tmp")`, which appends `.tmp` to the name
(the new suffix is the old suffix plus `.tmp`). -/
def tmpPath (p : String) : String :=
  p ++ ".tmp"

/-- Embedding of `_save_json(path, data)` as its two observable file-system states:
the state after the temporary file is fully written (`content` is the
serialized JSON plus trailing newline) and the state after the rename. -/
def saveJsonStates (fs : FS) (path content : String) : FS × FS :=
  let fs1 := fsWrite fs (tmpPath path) content
  let fs2 := fsReplace fs1 (tmpPath path) path
  (fs1, fs2)

/-- The single-character substitution performed by `_normalize_quotes`
(each curly double quote to `"`, each curly single quote and backtick to
`'`; the replacement chain has no overlapping sources/targets, so it is one
character map). -/
def normalizeQuoteChar (c : Char) : Char :=
  if c = '“' ∨ c = '”' ∨ c = '„' ∨ c = '«' ∨ c = '»' then Char.ofNat 34
  else if c = '’' ∨ c = '‘' ∨ c = '‚' ∨ c = Char.ofNat 96 then Char.ofNat 39
  else c

/-- Embedding of `_normalize_quotes`. -/
def normalizeQuotes (s : String) : String :=
  String.mk (s.data.map normalizeQuoteChar)

/-- Character-wise lower-casing (the embedding of `str.casefold`, which
coincides with lower-casing on the alphabets these manifests use). -/
def lowerStr (s : String) : String :=
  String.mk (s.data.map Char.toLower)

/-- Embedding of `_normalized_set_name_for_match(name)`:
`_normalize_quotes(html.unescape((name or "").strip())).casefold()`.
`html.unescape` is a standard-library collaborator and is passed in as a
function. -/
def normalized_set_name_for_match (unescape : String → String) (name : String) : String :=
  lowerStr (normalizeQuotes (unescape (pyStrip name)))

/-- Deterministic stand-in for the seeded PRNG collaborator:
`random.Random(seed)` is a pure function of the seed string, so the index
drawn by `rng.choice` for a seeded generator depends only on the seed and
the list length.  Only this determinism, not the distribution, is embedded. -/
def seedHash (s : String) : Nat :=
  s.foldl (fun a c => a * 131 + c.toNat + 17) 7

/-- The index drawn by `rng.choice(l)`: for a seeded generator a function of
the seed and `l.length` only; for an unseeded generator a function of the
ambient OS entropy consumed by `random.Random()`. -/
def rngIndex (seed : Option String) (entropy : Nat) (n : Nat) : Nat :=
  match seed with
  | some s => if n = 0 then 0 else seedHash s % n
  | none => if n = 0 then 0 else entropy % n

/-- Embedding of `rng.choice` on a non-empty list (the orchestrator only calls it after
ruling out the empty eligible list). -/
def rngChoice (e : ManifestEntry) (es : List ManifestEntry) (seed : Option String)
    (entropy : Nat) : ManifestEntry :=
  ((e :: es).get? (rngIndex seed entropy (e :: es).length)).getD e

/-- Python truthiness of `args.set_name` (`None` or `""` are falsy). -/
def optStrTruthy (o : Option String) : Bool :=
  match o with
  | some s => s ≠ ""
  | none => false

/-- Diagnostic printed when an explicit `--set-name` matches nothing. -/
def noSuchSetNameMsg (sname : String) : String :=
  "ERROR: no manifest entry found for set_name: " ++ sname

/-- Diagnostic printed when the eligible list is empty. -/
def noEligibleMsg (thresholdDays : Int) : String :=
  "No eligible sets found (threshold_days=" ++ toString thresholdDays ++ ")."

/-- The selection phase of `main` (`rin_throwback_post.py` lines 504-519):
with a truthy `--set-name`, filter the manifest by normalized-name equality
and take the first match (exit 3 with its diagnostic when there is none);
otherwise compute the eligible list (exit 3 with its diagnostic when empty)
and draw one entry with the RNG.  Errors carry `(exit code, stderr line)`. -/
def selectionPhase (manifest : List ManifestEntry) (history : List HistoryRecord)
    (thresholdDays : Int) (now : DateTime) (setNameArg : Option String)
    (seed : Option String) (entropy : Nat) (unescape : String → String) :
    Except (Nat × String) ManifestEntry :=
  if optStrTruthy setNameArg then
    let sname := setNameArg.getD ""
    let target := normalized_set_name_for_match unescape sname
    match manifest.filter
        (fun e => normalized_set_name_for_match unescape e.set_name = target) with
    | [] => Except.error (3, noSuchSetNameMsg sname)
    | m :: _ => Except.ok m
  else
    match eligible_entries manifest history thresholdDays now with
    | [] => Except.error (3, noEligibleMsg thresholdDays)
    | e :: es => Except.ok (rngChoice e es seed entropy)

/-- Value of the `--platform` flag. -/
inductive Platform where
  | twitter
  | bluesky
  | both
deriving DecidableEq, Repr

/-- Test `args.platform in` the set of `"twitter"` and `"both"`. -/
def postToTw (p : Platform) : Bool :=
  match p with
  | .twitter => true
  | .both => true
  | .bluesky => false

/-- Test `args.platform in` the set of `"bluesky"` and `"both"`. -/
def postToBs (p : Platform) : Bool :=
  match p with
  | .bluesky => true
  | .both => true
  | .twitter => false

/-- Outcomes of the remote-facing `try` blocks of `main`, one `Except` per
block (`.error` = the block raised; the string is the exception detail). -/
structure PostEnv where
  twitterAuthFileExists : Bool
  twitterAuthInit : Except String Unit
  twitterMediaUpload : Except String Nat
  twitterCreate : Except String (Option String)
  blueskyAuthFileExists : Bool
  blueskyRun : Except String (Option String × Option String)
deriving Repr

/-- Embedding of `str(twitter_post_id) if twitter_post_id else None`. -/
def normId (t : Option String) : Option String :=
  match t with
  | some s => if s = "" then none else some s
  | none => none

/-- The Twitter block of `main` (lines 584-613): missing auth file or failed
auth/client init exits 6, media-upload failure exits 7, post-create failure
exits 8; on success it yields the created post id (possibly absent). -/
def twitterPhase (env : PostEnv) : Except Nat (Option String) :=
  if !env.twitterAuthFileExists then Except.error 6
  else
    match env.twitterAuthInit with
    | .error _ => Except.error 6
    | .ok _ =>
        match env.twitterMediaUpload with
        | .error _ => Except.error 7
        | .ok _ =>
            match env.twitterCreate with
            | .error _ => Except.error 8
            | .ok tid => Except.ok tid

/-- The Bluesky block of `main` (lines 615-651): missing auth file exits 10,
any failure in the render/login/upload/create sequence exits 11; on success
it yields the AT URI and derived web URL (each possibly absent). -/
def blueskyPhase (env : PostEnv) : Except Nat (Option String × Option String) :=
  if !env.blueskyAuthFileExists then Except.error 10
  else
    match env.blueskyRun with
    | .error _ => Except.error 11
    | .ok r => Except.ok r

/-- Result of a run past the dry-run gate: the process exit code and, when
the final `_save_json(history_path, history)` is reached, the list written
back (`none` = the run exited before any history write). -/
structure RunOutcome where
  exitCode : Nat
  saved : Option (List HistoryRecord)
deriving DecidableEq, Repr

/-- The posting phase of `main` (lines 574-672): run the Twitter block when
enabled (any failure returns its exit code at once, skipping everything
after it), then the Bluesky block when enabled (likewise), and only then
build the single history record, append it to the loaded history and save. -/
def mainPostPhase (platform : Platform) (env : PostEnv) (history : List HistoryRecord)
    (filename set_name set_url : String) (now : DateTime) : RunOutcome :=
  let tres := if postToTw platform then twitterPhase env else Except.ok none
  match tres with
  | .error c => ⟨c, none⟩
  | .ok tid =>
      let bres := if postToBs platform then blueskyPhase env else Except.ok (none, none)
      match bres with
      | .error c => ⟨c, none⟩
      | .ok (buri, burl) =>
          let record : HistoryRecord :=
            ⟨set_url, set_name, TsField.valid now, TsField.absent,
             normId tid, buri, burl, filename⟩
          ⟨0, some (history ++ [record])⟩

/-- The dry-run exit of `main` (lines 557-572): always exit 0; with
`--record-dry-run` append one record (null Twitter id, `posted_at = now`)
and save, otherwise write nothing. -/
def dryRunPhase (recordDryRun : Bool) (history : List HistoryRecord)
    (filename set_name set_url : String) (now : DateTime) : RunOutcome :=
  if recordDryRun then
    let record : HistoryRecord :=
      ⟨set_url, set_name, TsField.valid now, TsField.absent, none, none, none, filename⟩
    ⟨0, some (history ++ [record])⟩
  else ⟨0, none⟩

/-! ## Helper lemmas -/

/-- The append-accumulating fold of `_eligible_entries` is a filter. -/
theorem foldl_append_filter (p : ManifestEntry → Bool) (l : List ManifestEntry) :
    ∀ acc : List ManifestEntry,
      l.foldl (fun acc e => if p e then acc ++ [e] else acc) acc = acc ++ l.filter p := by
  induction l with
  | nil => intro acc; simp
  | cons x xs ih =>
      intro acc
      by_cases h : p x
      · simp [h, ih, List.filter_cons]
      · simp [h, ih, List.filter_cons]

/-- The function `_eligible_entries` equals a filter of the manifest. -/
theorem eligible_entries_eq_filter (manifest : List ManifestEntry)
    (history : List HistoryRecord) (thresholdDays : Int) (now : DateTime) :
    eligible_entries manifest history thresholdDays now
      = manifest.filter (eligPred (lastIndex history) thresholdDays now) := by
  simpa [eligible_entries] using
    foldl_append_filter (eligPred (lastIndex history) thresholdDays now) manifest []

/-- Membership in the eligible list. -/
theorem mem_eligible_iff (manifest : List ManifestEntry) (history : List HistoryRecord)
    (thresholdDays : Int) (now : DateTime) (e : ManifestEntry) :
    e ∈ eligible_entries manifest history thresholdDays now
      ↔ e ∈ manifest ∧ eligPred (lastIndex history) thresholdDays now e = true := by
  rw [eligible_entries_eq_filter, List.mem_filter]

/-- When a record's `posted_at` is falsy, both scripts read the same
timestamp field. -/
theorem recTs_eq_recTsTweet (r : HistoryRecord) (h : r.posted_at = TsField.absent) :
    recTs r = recTsTweet r := by
  simp [recTs, recTsTweet, h]

/-- The greedy loop of `_fit_tags` keeps an order-preserving prefix of its
input list, the kept prefix fits the budget whenever it is non-empty, and
the first tag after the kept prefix (when there is one) would overflow. -/
theorem fitLoop_spec (base : String) (maxLen : Nat) :
    ∀ (ts kept : List String),
      (kept ≠ [] → (base ++ "\n\n" ++ String.intercalate " " kept).length ≤ maxLen) →
      ∃ done rest,
        fitLoop base maxLen kept ts = done ∧
        kept ++ ts = done ++ rest ∧
        (done ≠ [] → (base ++ "\n\n" ++ String.intercalate " " done).length ≤ maxLen) ∧
        (∀ t rest2, rest = t :: rest2 →
          maxLen < (base ++ "\n\n" ++ String.intercalate " " (done ++ [t])).length) := by
  intro ts
  induction ts with
  | nil =>
      intro kept hk
      exact ⟨kept, [], rfl, by simp, hk, by intro t r2 h; cases h⟩
  | cons t ts ih =>
      intro kept hk
      by_cases h : (base ++ "\n\n" ++ String.intercalate " " (kept ++ [t])).length ≤ maxLen
      · obtain ⟨done, rest, h1, h2, h3, h4⟩ := ih (kept ++ [t]) (fun _ => h)
        refine ⟨done, rest, ?_, ?_, h3, h4⟩
        · simp only [fitLoop]
          rw [if_pos h]
          exact h1
        · simpa [List.append_assoc] using h2
      · refine ⟨kept, t :: ts, ?_, rfl, hk, ?_⟩
        · simp only [fitLoop]
          rw [if_neg h]
        · intro t2 r2 he
          cases he
          omega

/-- Appending strings acts as list append on the character data. -/
theorem str_data_append (a b : String) : (a ++ b).data = a.data ++ b.data :=
  String.data_append a b

/-- The two selection-failure diagnostics are always different strings
(their first characters differ). -/
theorem noSuchSetNameMsg_ne_noEligibleMsg (sname : String) (thresholdDays : Int) :
    noSuchSetNameMsg sname ≠ noEligibleMsg thresholdDays := by
  intro h
  have h2 := congrArg (fun s : String => s.data.head?) h
  have e1 : (noSuchSetNameMsg sname).data.head? = some 'E' := by
    simp only [noSuchSetNameMsg, str_data_append]
    rfl
  have e2 : (noEligibleMsg thresholdDays).data.head? = some 'N' := by
    simp only [noEligibleMsg, str_data_append]
    rfl
  simp only [e1, e2] at h2
  cases h2

/-- The temporary sibling path differs from the history path. -/
theorem tmpPath_ne (p : String) : tmpPath p ≠ p := by
  intro h
  have h2 : (tmpPath p).data.length = p.data.length := by rw [h]
  have h3 : (tmpPath p).data.length = p.data.length + 4 := by
    show ((p ++ ".tmp").data).length = p.data.length + 4
    rw [str_data_append, List.length_append]
    have h4 : (".tmp" : String).data.length = 4 := rfl
    omega
  omega

/-! ## Claim theorems -/

/-- C2: for a manifest entry whose identity key is non-empty, eligibility is
decided purely on calendar days: with no record under the key the entry is
always eligible, and with a most-recent record at `w` it is eligible iff
`days_ago w now = now.day - w.day` is at least `threshold_days` (so exactly
`threshold_days` calendar days ago is eligible, `threshold_days - 1` is not,
and the times of day of both timestamps are irrelevant). -/
theorem C2_calendar_day_threshold (manifest : List ManifestEntry)
    (history : List HistoryRecord) (thresholdDays : Int) (now : DateTime)
    (e : ManifestEntry) (he : e ∈ manifest) (hk : entryKey e ≠ "") :
    (lastIndex history (entryKey e) = none →
      e ∈ eligible_entries manifest history thresholdDays now) ∧
    (∀ w, lastIndex history (entryKey e) = some w →
      (e ∈ eligible_entries manifest history thresholdDays now ↔
        thresholdDays ≤ days_ago w now)) := by
  constructor
  · intro hnone
    rw [mem_eligible_iff]
    refine ⟨he, ?_⟩
    simp [eligPred, hk, hnone]
  · intro w hw
    rw [mem_eligible_iff]
    simp [eligPred, hk, hw, he]

/-- C2 witness: one entry with key `u`, last posted on calendar day 0 (time
of day 5), now on calendar day 90 (time of day 1), threshold 90: exactly 90
calendar days later the entry is eligible. -/
theorem C2_calendar_day_threshold_witness :
    ((⟨"f", "n", "u", "d", "t"⟩ : ManifestEntry) ∈ [(⟨"f", "n", "u", "d", "t"⟩ : ManifestEntry)] ∧
      entryKey ⟨"f", "n", "u", "d", "t"⟩ ≠ "") ∧
    lastIndex [⟨"u", "", TsField.valid ⟨0, 5⟩, TsField.absent, none, none, none, ""⟩]
        (entryKey ⟨"f", "n", "u", "d", "t"⟩) = some ⟨0, 5⟩ ∧
    (⟨"f", "n", "u", "d", "t"⟩ : ManifestEntry) ∈
      eligible_entries [⟨"f", "n", "u", "d", "t"⟩]
        [⟨"u", "", TsField.valid ⟨0, 5⟩, TsField.absent, none, none, none, ""⟩] 90 ⟨90, 1⟩ :=
  ⟨⟨by decide, by decide⟩, by decide,
    ((C2_calendar_day_threshold _ _ 90 ⟨90, 1⟩ _ (by decide) (by decide)).2
      ⟨0, 5⟩ (by decide)).mpr (by decide)⟩

/-- C6: the identity key is the stripped `set_url` when that is non-empty,
else the stripped `set_name`; an entry with an empty key is never eligible;
and when `set_url` is present, eligibility depends on the history only
through the last-seen index at the `set_url` key, so history records whose
key is the entry's `set_name` cannot affect it. -/
theorem C6_identity_key_precedence (manifest : List ManifestEntry)
    (h1 h2 : List HistoryRecord) (thresholdDays : Int) (now : DateTime)
    (e : ManifestEntry) :
    (entryKey e = "" → e ∉ eligible_entries manifest h1 thresholdDays now) ∧
    (pyStrip e.set_url ≠ "" → entryKey e = pyStrip e.set_url) ∧
    (pyStrip e.set_url ≠ "" →
      lastIndex h1 (pyStrip e.set_url) = lastIndex h2 (pyStrip e.set_url) →
      (e ∈ eligible_entries manifest h1 thresholdDays now ↔
        e ∈ eligible_entries manifest h2 thresholdDays now)) := by
  refine ⟨?_, ?_, ?_⟩
  · intro hk hmem
    rw [mem_eligible_iff] at hmem
    have := hmem.2
    simp [eligPred, hk] at this
  · intro hu
    simp [entryKey, pyOrS, hu]
  · intro hu hsame
    have hkey : entryKey e = pyStrip e.set_url := by simp [entryKey, pyOrS, hu]
    rw [mem_eligible_iff, mem_eligible_iff]
    have hpred : eligPred (lastIndex h1) thresholdDays now e
        = eligPred (lastIndex h2) thresholdDays now e := by
      simp only [eligPred, hkey, hsame]
    rw [hpred]

/-- C6 witness: entry with `set_url = "u"` and `set_name = "n"`; a history
record whose key is only the colliding `set_name` `"n"` (posted one calendar
day before `now`) leaves the last-seen index at key `"u"` unchanged, so the
entry stays eligible exactly as with an empty history. -/
theorem C6_identity_key_precedence_witness :
    (pyStrip "u" ≠ "" ∧
      lastIndex ([] : List HistoryRecord) (pyStrip "u")
        = lastIndex [⟨"", "n", TsField.valid ⟨89, 0⟩, TsField.absent, none, none, none, ""⟩]
            (pyStrip "u")) ∧
    (⟨"f", "n", "u", "d", "t"⟩ : ManifestEntry) ∈
      eligible_entries [⟨"f", "n", "u", "d", "t"⟩]
        [⟨"", "n", TsField.valid ⟨89, 0⟩, TsField.absent, none, none, none, ""⟩] 90 ⟨90, 0⟩ :=
  ⟨⟨by decide, by decide⟩,
    ((C6_identity_key_precedence [⟨"f", "n", "u", "d", "t"⟩] []
        [⟨"", "n", TsField.valid ⟨89, 0⟩, TsField.absent, none, none, none, ""⟩]
        90 ⟨90, 0⟩ ⟨"f", "n", "u", "d", "t"⟩).2.2 (by decide) (by decide)).mp (by decide)⟩

/-- C8: the eligible list is exactly the filter of the manifest by the
per-entry eligibility test — hence a subsequence of the manifest: manifest
order is preserved and nothing is re-sorted. -/
theorem C8_manifest_order_preserved (manifest : List ManifestEntry)
    (history : List HistoryRecord) (thresholdDays : Int) (now : DateTime) :
    eligible_entries manifest history thresholdDays now
      = manifest.filter (eligPred (lastIndex history) thresholdDays now) ∧
    List.Sublist (eligible_entries manifest history thresholdDays now) manifest := by
  refine ⟨eligible_entries_eq_filter manifest history thresholdDays now, ?_⟩
  rw [eligible_entries_eq_filter]
  exact List.filter_sublist manifest

/-- C10: on any history whose records all lack a truthy `posted_at` (legacy
`tweeted_at`-only records), the eligibility function of
`rin_throwback_post.py` agrees with that of `rin_throwback_tweet.py`:
the newer script's `posted_at or tweeted_at` falls through to `tweeted_at`
on every record. -/
theorem C10_legacy_history_equiv (manifest : List ManifestEntry)
    (history : List HistoryRecord) (thresholdDays : Int) (now : DateTime)
    (h : ∀ r ∈ history, r.posted_at = TsField.absent) :
    eligible_entries manifest history thresholdDays now
      = eligible_entries_tweet manifest history thresholdDays now := by
  have hl : lastIndex history = lastIndexTweet history := by
    unfold lastIndex lastIndexTweet
    apply List.foldl_ext
    intro acc r hr
    simp only [recTs_eq_recTsTweet r (h r hr)]
  simp only [eligible_entries, eligible_entries_tweet, hl]

/-- C10 witness: a one-record legacy history (timestamp only under
`tweeted_at`) yields the same eligible list from both scripts, and the
record in question does count toward repeat detection (the entry last
posted 10 days ago is filtered out by both under threshold 90). -/
theorem C10_legacy_history_equiv_witness :
    ((⟨"u", "", TsField.absent, TsField.valid ⟨0, 0⟩, none, none, none, ""⟩ : HistoryRecord).posted_at
        = TsField.absent) ∧
    eligible_entries [⟨"f", "n", "u", "d", "t"⟩]
        [⟨"u", "", TsField.absent, TsField.valid ⟨0, 0⟩, none, none, none, ""⟩] 90 ⟨10, 0⟩
      = eligible_entries_tweet [⟨"f", "n", "u", "d", "t"⟩]
        [⟨"u", "", TsField.absent, TsField.valid ⟨0, 0⟩, none, none, none, ""⟩] 90 ⟨10, 0⟩ :=
  ⟨rfl, C10_legacy_history_equiv _ _ 90 ⟨10, 0⟩ (by decide)⟩

/-- C5 counterexample: with `base = ""`, `tags = "hello"` and budget 100 the
whole candidate fits, so `_fit_tags` returns `"hello"` verbatim — yet the
tag string contains no hashtag at all, so the only order-preserving prefix
of its (empty) hashtag list joins to `""`.  The helper's result is therefore
not a greedy prefix of the whole hashtags, refuting the claim as stated. -/
theorem C5_counterexample :
    fit_tags "" "hello" 100 = "hello" ∧
    hashtagsOf "hello" = [] ∧
    fit_tags "" "hello" 100 ≠ "" :=
  ⟨by decide, by decide, by decide⟩

/-- C5 (amended): `_fit_tags` returns the empty string on a blank tag
string; it returns the stripped tag string verbatim (whatever tokens and
spacing it contains) whenever `base + "\n\n" + tags` already fits the
budget; and only otherwise does it return an order-preserving greedy prefix
of the whole hashtags joined by single spaces — a prefix that fits the
budget whenever non-empty, cut at the first hashtag that would overflow,
with every later hashtag dropped (they are simply not in the prefix). -/
theorem C5_greedy_prefix_characterization (base tags : String) (maxLen : Nat) :
    (pyStrip tags = "" ∧ fit_tags base tags maxLen = "") ∨
    ((base ++ "\n\n" ++ pyStrip tags).length ≤ maxLen ∧
      fit_tags base tags maxLen = pyStrip tags) ∨
    (∃ done rest,
      hashtagsOf tags = done ++ rest ∧
      fit_tags base tags maxLen = String.intercalate " " done ∧
      (done ≠ [] → (base ++ "\n\n" ++ String.intercalate " " done).length ≤ maxLen) ∧
      (∀ t rest2, rest = t :: rest2 →
        maxLen < (base ++ "\n\n" ++ String.intercalate " " (done ++ [t])).length)) := by
  by_cases h0 : pyStrip tags = ""
  · exact Or.inl ⟨h0, by simp [fit_tags, h0]⟩
  · by_cases h1 : (base ++ "\n\n" ++ pyStrip tags).length ≤ maxLen
    · refine Or.inr (Or.inl ⟨h1, ?_⟩)
      simp only [fit_tags]
      rw [if_neg h0, if_pos h1]
    · refine Or.inr (Or.inr ?_)
      obtain ⟨done, rest, e1, e2, e3, e4⟩ :=
        fitLoop_spec base maxLen ((splitWs (pyStrip tags)).filter startsWithHash) []
          (by intro hne; cases hne rfl)
      refine ⟨done, rest, ?_, ?_, e3, e4⟩
      · simpa [hashtagsOf] using e2
      · simp only [fit_tags]
        rw [if_neg h0, if_neg h1, e1]

/-- C5 witness: base of length 10 with budget 19 leaves room for exactly the
first two of four hashtags; the amended characterization instantiates to
the third disjunct there. -/
theorem C5_greedy_prefix_characterization_witness :
    (pyStrip "#aa #bb #cc #dd" = "" ∧ fit_tags "0123456789" "#aa #bb #cc #dd" 19 = "") ∨
    (("0123456789" ++ "\n\n" ++ pyStrip "#aa #bb #cc #dd").length ≤ 19 ∧
      fit_tags "0123456789" "#aa #bb #cc #dd" 19 = pyStrip "#aa #bb #cc #dd") ∨
    (∃ done rest,
      hashtagsOf "#aa #bb #cc #dd" = done ++ rest ∧
      fit_tags "0123456789" "#aa #bb #cc #dd" 19 = String.intercalate " " done ∧
      (done ≠ [] →
        ("0123456789" ++ "\n\n" ++ String.intercalate " " done).length ≤ 19) ∧
      (∀ t rest2, rest = t :: rest2 →
        19 < ("0123456789" ++ "\n\n" ++ String.intercalate " " (done ++ [t])).length)) :=
  C5_greedy_prefix_characterization "0123456789" "#aa #bb #cc #dd" 19

/-- C4: `_save_json` writes the whole content to the temporary sibling path
first and only then renames it over the original: in the intermediate state
(a crash after the temporary write, before the rename) the original path is
byte-for-byte untouched and the temporary file holds the full content; in
the final state the original path holds the full content and the temporary
file is gone. -/
theorem C4_atomic_history_save (fs : FS) (path content : String) :
    (saveJsonStates fs path content).1 path = fs path ∧
    (saveJsonStates fs path content).1 (tmpPath path) = some content ∧
    (saveJsonStates fs path content).2 path = some content ∧
    (saveJsonStates fs path content).2 (tmpPath path) = none := by
  have h1 := tmpPath_ne path
  have h2 : path ≠ tmpPath path := fun h => h1 h.symm
  refine ⟨?_, ?_, ?_, ?_⟩ <;>
    simp [saveJsonStates, fsWrite, fsReplace, h1, h2]

/-- C7: with a seed supplied, the entry chosen by the selection phase is a
pure function of the eligible list and the seed: any two runs whose inputs
produce the same eligible list, with the same seed, select the same entry —
whatever ambient entropy each run's process would otherwise have drawn
(the unseeded `random.Random()` path is the only consumer of that entropy). -/
theorem C7_seeded_selection_deterministic (m1 m2 : List ManifestEntry)
    (h1 h2 : List HistoryRecord) (t1 t2 : Int) (now1 now2 : DateTime) (s : String)
    (entropy1 entropy2 : Nat) (u1 u2 : String → String)
    (heq : eligible_entries m1 h1 t1 now1 = eligible_entries m2 h2 t2 now2) :
    (selectionPhase m1 h1 t1 now1 none (some s) entropy1 u1).toOption
      = (selectionPhase m2 h2 t2 now2 none (some s) entropy2 u2).toOption := by
  simp only [selectionPhase, optStrTruthy, if_neg Bool.false_ne_true]
  rw [heq]
  cases eligible_entries m2 h2 t2 now2 with
  | nil => rfl
  | cons e es => simp [rngChoice, rngIndex, Except.toOption]

/-- C7 witness: two different manifests (the second carries an extra entry
with an empty identity key, which is excluded) yield the same eligible
list; with seed `"42"` and different entropy both runs select the same
entry. -/
theorem C7_seeded_selection_deterministic_witness :
    eligible_entries [⟨"f", "n", "u", "d", "t"⟩, ⟨"g", "", "", "d", "t"⟩] [] 90 ⟨5, 0⟩
        = eligible_entries [⟨"f", "n", "u", "d", "t"⟩] [] 90 ⟨5, 0⟩ ∧
    (selectionPhase [⟨"f", "n", "u", "d", "t"⟩, ⟨"g", "", "", "d", "t"⟩] [] 90 ⟨5, 0⟩
        none (some "42") 3 id).toOption
      = (selectionPhase [⟨"f", "n", "u", "d", "t"⟩] [] 90 ⟨5, 0⟩
        none (some "42") 99 id).toOption :=
  ⟨by decide,
    C7_seeded_selection_deterministic _ _ _ _ 90 90 ⟨5, 0⟩ ⟨5, 0⟩ "42" 3 99 id id (by decide)⟩

/-- C9 counterexample: an empty manifest with an explicit `--set-name`
override fails with exit code 3, and an empty manifest with no override
also fails with exit code 3 — the two failure classes share the same
process exit status, refuting the claim that each has a distinct one. -/
theorem C9_counterexample :
    selectionPhase [] [] 90 ⟨0, 0⟩ (some "Foo") none 0 id
        = Except.error (3, "ERROR: no manifest entry found for set_name: Foo") ∧
    selectionPhase [] [] 90 ⟨0, 0⟩ none none 0 id
        = Except.error (3, "No eligible sets found (threshold_days=90).") :=
  ⟨rfl, rfl⟩

/-- C9 (amended): a zero-match `--set-name` override and an empty eligible
list are distinguishable failure outcomes only through their diagnostics —
the two stderr lines are always different strings — while the process exit
status is 3 in both cases, not distinct. -/
theorem C9_exit_code_shared_diagnostics_distinct (manifest : List ManifestEntry)
    (history : List HistoryRecord) (thresholdDays : Int) (now : DateTime)
    (sname : String) (seed : Option String) (entropy : Nat)
    (unescape : String → String) (hs : sname ≠ "") :
    (manifest.filter (fun e =>
        normalized_set_name_for_match unescape e.set_name
          = normalized_set_name_for_match unescape sname) = [] →
      selectionPhase manifest history thresholdDays now (some sname) seed entropy unescape
        = Except.error (3, noSuchSetNameMsg sname)) ∧
    (eligible_entries manifest history thresholdDays now = [] →
      selectionPhase manifest history thresholdDays now none seed entropy unescape
        = Except.error (3, noEligibleMsg thresholdDays)) ∧
    noSuchSetNameMsg sname ≠ noEligibleMsg thresholdDays := by
  refine ⟨?_, ?_, noSuchSetNameMsg_ne_noEligibleMsg sname thresholdDays⟩
  · intro hm
    simp only [selectionPhase, optStrTruthy, Option.getD_some, hs, ne_eq,
      not_false_eq_true, if_true]
    rw [hm]
    simp
  · intro helig
    simp only [selectionPhase, optStrTruthy, if_neg Bool.false_ne_true]
    rw [helig]

/-- C9 witness: both failure branches at concrete inputs, exhibiting the
shared exit code 3 and the two different diagnostics. -/
theorem C9_exit_code_shared_diagnostics_distinct_witness :
    ("Foo" ≠ "" ∧
      ([] : List ManifestEntry).filter (fun e =>
        normalized_set_name_for_match id e.set_name
          = normalized_set_name_for_match id "Foo") = [] ∧
      eligible_entries [] [] 7 ⟨0, 0⟩ = []) ∧
    (selectionPhase [] [] 7 ⟨0, 0⟩ (some "Foo") none 5 id
        = Except.error (3, noSuchSetNameMsg "Foo") ∧
      selectionPhase [] [] 7 ⟨0, 0⟩ none none 5 id = Except.error (3, noEligibleMsg 7) ∧
      noSuchSetNameMsg "Foo" ≠ noEligibleMsg 7) :=
  ⟨⟨by decide, rfl, rfl⟩, by
    have h := C9_exit_code_shared_diagnostics_distinct [] [] 7 ⟨0, 0⟩ "Foo" none 5 id
      (by decide)
    exact ⟨h.1 rfl, h.2.1 rfl, h.2.2⟩⟩

/-- C1 counterexample: `--platform both`, the Twitter media upload raises,
and the Bluesky pipeline would succeed with a populated URI — yet the run
stops at exit code 7: Bluesky is never attempted and no history record is
built or persisted, refuting independent platform failure as claimed. -/
theorem C1_counterexample :
    mainPostPhase Platform.both
      ⟨true, Except.ok (), Except.error "upload failed", Except.ok (some "1"), true,
        Except.ok (some "aturi", some "weburl")⟩
      [] "f.jpg" "Name" "u" ⟨1, 0⟩ = ⟨7, none⟩ :=
  rfl

/-- C1 (amended): with both platforms enabled, a remote failure is fatal to
the whole run, not just the affected platform: a failing Twitter block ends
the run with that block's exit code before the Bluesky block or any history
write (whatever the Bluesky environment holds), and a failing Bluesky block
after a successful Twitter block ends the run with its exit code before any
history write — so no record with a null identifier for the failed platform
is ever persisted. -/
theorem C1_remote_failure_aborts_run (env : PostEnv) (history : List HistoryRecord)
    (filename set_name set_url : String) (now : DateTime) :
    (∀ c, twitterPhase env = Except.error c →
      mainPostPhase Platform.both env history filename set_name set_url now = ⟨c, none⟩) ∧
    (∀ tid c, twitterPhase env = Except.ok tid → blueskyPhase env = Except.error c →
      mainPostPhase Platform.both env history filename set_name set_url now = ⟨c, none⟩) := by
  constructor
  · intro c hc
    simp [mainPostPhase, postToTw, hc]
  · intro tid c htw hbs
    simp [mainPostPhase, postToTw, postToBs, htw, hbs]

/-- C1 witness: a concrete environment whose Twitter upload raises; the run
exits 7 with no history write. -/
theorem C1_remote_failure_aborts_run_witness :
    twitterPhase ⟨true, Except.ok (), Except.error "x", Except.ok none, true,
        Except.ok (none, none)⟩ = Except.error 7 ∧
    mainPostPhase Platform.both
      ⟨true, Except.ok (), Except.error "x", Except.ok none, true, Except.ok (none, none)⟩
      [] "f" "n" "u" ⟨0, 0⟩ = ⟨7, none⟩ :=
  ⟨rfl,
    (C1_remote_failure_aborts_run
      ⟨true, Except.ok (), Except.error "x", Except.ok none, true, Except.ok (none, none)⟩
      [] "f" "n" "u" ⟨0, 0⟩).1 7 rfl⟩

/-- C3 counterexample: a run that really posts (the Twitter block succeeds
with post id 99) but whose Bluesky block then raises writes nothing at all:
zero records are appended for this invocation, refuting exactly-one-append
for every run that reaches a real post. -/
theorem C3_counterexample :
    (⟨true, Except.ok (), Except.ok 5, Except.ok (some "99"), true,
        Except.error "bluesky down"⟩ : PostEnv).twitterCreate = Except.ok (some "99") ∧
    mainPostPhase Platform.both
      ⟨true, Except.ok (), Except.ok 5, Except.ok (some "99"), true,
        Except.error "bluesky down"⟩
      [⟨"u0", "n0", TsField.valid ⟨0, 0⟩, TsField.absent, some "1", none, none, "f0"⟩]
      "f.jpg" "Name" "u" ⟨2, 0⟩ = ⟨11, none⟩ :=
  ⟨rfl, rfl⟩

/-- C3 (amended): whenever the posting phase or the record-dry-run path does
write history back, the written list is exactly the loaded history with one
new record appended at the end — no pre-existing record is modified,
reordered or deleted; but a run aborted by a platform failure (even after a
real post on an earlier platform) writes nothing. -/
theorem C3_append_exactly_one (platform : Platform) (env : PostEnv)
    (history : List HistoryRecord) (filename set_name set_url : String)
    (now : DateTime) (recordDryRun : Bool) (saved : List HistoryRecord) :
    ((mainPostPhase platform env history filename set_name set_url now).saved = some saved →
      ∃ r, saved = history ++ [r]) ∧
    ((dryRunPhase recordDryRun history filename set_name set_url now).saved = some saved →
      ∃ r, saved = history ++ [r]) := by
  constructor
  · intro hs
    unfold mainPostPhase at hs
    cases htw : (if postToTw platform then twitterPhase env else Except.ok none) with
    | error c => rw [htw] at hs; simp at hs
    | ok tid =>
        rw [htw] at hs
        cases hbs : (if postToBs platform then blueskyPhase env
            else Except.ok (none, none)) with
        | error c => rw [hbs] at hs; simp at hs
        | ok pr =>
            rw [hbs] at hs
            obtain ⟨buri, burl⟩ := pr
            simp only [Option.some.injEq] at hs
            exact ⟨_, hs.symm⟩
  · intro hs
    cases recordDryRun with
    | false => simp [dryRunPhase] at hs
    | true =>
        simp only [dryRunPhase, if_true, Option.some.injEq] at hs
        exact ⟨_, hs.symm⟩

/-- C3 witness: a Twitter-only run that succeeds writes back exactly the
loaded history plus one record. -/
theorem C3_append_exactly_one_witness :
    (mainPostPhase Platform.twitter
        ⟨true, Except.ok (), Except.ok 1, Except.ok (some "7"), false, Except.error "e"⟩
        [] "f" "n" "u" ⟨3, 0⟩).saved
      = some [⟨"u", "n", TsField.valid ⟨3, 0⟩, TsField.absent, some "7", none, none, "f"⟩] ∧
    ∃ r, [(⟨"u", "n", TsField.valid ⟨3, 0⟩, TsField.absent, some "7", none, none, "f"⟩ :
        HistoryRecord)] = [] ++ [r] :=
  ⟨rfl,
    (C3_append_exactly_one Platform.twitter
      ⟨true, Except.ok (), Except.ok 1, Except.ok (some "7"), false, Except.error "e"⟩
      [] "f" "n" "u" ⟨3, 0⟩ false _).1 rfl⟩
